import Mathlib

/-!
Verification of the kaginawa mbed firmware (src/mbed/main.cc).

The firmware is a single control loop: it receives one-byte motor commands
over a serial link, decodes them through a bitfield union, drives one of
four motors (PWM duty + direction pin), samples analog channels, and
reports the sampled values as a hex-formatted ASCII line.

The embedding below mirrors the C source:
  * `MotorPacket`/`decode` model the `MotorPacketBits` bitfield overlaid on
    `as_byte` (ARM little-endian allocation: `motor_id` in bits 0-1,
    `negative` in bit 2, `speed` in bits 3-7).
  * `Motor`, `Motor.init`, `Motor.drive` model the `Motor` class (a `PwmOut`
    duty/period pair plus a `DigitalOut` direction level).
  * `sampleActive` models the ADC refresh loop plus the two fixed reads of
    `pots[4]` and `pots[5]`.
  * `hexUpper`/`reportLine` model the `printf("0x%X ", ...)` report loop.
  * `tick` models one iteration of the `while(1)` body: ingest, act,
    sample, report.  Floating-point speeds are modelled over `ℚ`.
-/

namespace Kaginawa

/-- The decoded view of a command byte, mirroring `struct MotorPacketBits`:
`motor_id` is a 2-bit field, `negative` a 1-bit field, `speed` a 5-bit field. -/
structure MotorPacket where
  motor_id : Nat
  negative : Nat
  speed : Nat
deriving DecidableEq, Repr

/-- Reading the bitfield members of `union MotorPacket` after storing byte `b`
into `as_byte`.  On the mbed (little-endian ARM) the first declared bitfield
occupies the least significant bits, so `motor_id = b & 3`,
`negative = (b >> 2) & 1`, `speed = (b >> 3) & 31`. -/
def decode (b : Nat) : MotorPacket :=
  { motor_id := b % 4
  , negative := b / 4 % 2
  , speed := b / 8 % 32 }

/-- Packing a field triple into a wire byte with the layout of
`MotorPacketBits` (motor_id lowest two bits, then negative, then speed). -/
def encode (motor_id negative speed : Nat) : Nat :=
  motor_id + 4 * negative + 8 * speed

/-- The extension-command discriminator, the condition
`packet.b.negative and !packet.b.speed` of the loop. -/
def isExtension (p : MotorPacket) : Bool :=
  p.negative != 0 && p.speed == 0

/-- The state of one `PwmOut`: its duty cycle and its period in
microseconds. -/
structure PwmOut where
  duty : ℚ
  period_us : Nat
deriving DecidableEq, Repr

/-- The hardware state of one `Motor`: its `PwmOut` and the level of its
`DigitalOut` direction pin (0 = LO, 1 = HI). -/
structure Motor where
  pwm : PwmOut
  dir : Nat
deriving DecidableEq, Repr

/-- The forward level of the DIR pin.  The source (`Motor` constructor doc)
states "HI is forward, LO is reverse", and `Motor::drive` writes 1 to `dir`
for nonnegative speeds. -/
def forwardLevel : Nat := 1

/-- The state a `Motor` is left in by the constructor: `pwm = dir = 0`
(both outputs low) followed by `pwm.period_us(40)`. -/
def Motor.init : Motor :=
  { pwm := { duty := 0, period_us := 40 }, dir := 0 }

/-- The body of `Motor::drive`: `dir = speed < 0 ? 0 : 1; pwm = abs(speed);`.
The PWM period is untouched. -/
def Motor.drive (m : Motor) (speed : ℚ) : Motor :=
  { pwm := { duty := |speed|, period_us := m.pwm.period_us }
  , dir := if speed < 0 then 0 else 1 }

/-- The normalized speed computed by the loop for a drive packet:
`sign = negative ? -1 : 1;` then `sign * speed / 31.0`. -/
def normalizedSpeed (p : MotorPacket) : ℚ :=
  (if p.negative != 0 then (-1 : ℚ) else 1) * (p.speed : ℚ) / 31

/-- The index into the `motors` array used by the act step.  A decoded
packet always has `motor_id < 4` (2-bit field), so the `% 4` is inert on
every packet the loop produces. -/
def motorIndex (p : MotorPacket) : Fin 4 :=
  ⟨p.motor_id % 4, Nat.mod_lt _ (by norm_num)⟩

/-- The observable action of the act step of one iteration. -/
inductive Action where
  | ext (id : Nat)
  | driveCmd (id : Nat) (s : ℚ)
deriving DecidableEq, Repr

/-- The command an already-decoded packet dictates, independent of the
current motor state. -/
def commandOf (p : MotorPacket) : Action :=
  if isExtension p then Action.ext p.motor_id
  else Action.driveCmd p.motor_id (normalizedSpeed p)

/-- The act step of the loop: if `negative and !speed`, the packet is an
extension command and the four `switch` handler bodies are commented out
(no hardware effect); otherwise `motors[motor_id].drive(sign*speed/31.0)`.
Returns the updated motor array and the action taken. -/
def act (motors : Fin 4 → Motor) (p : MotorPacket) : (Fin 4 → Motor) × Action :=
  if isExtension p then
    (motors, Action.ext p.motor_id)
  else
    (Function.update motors (motorIndex p)
      ((motors (motorIndex p)).drive (normalizedSpeed p)),
     Action.driveCmd p.motor_id (normalizedSpeed p))

/-- Number of ADC channels in use (`int n_adc = 2`). -/
def n_adc : Nat := 2

/-- The sample step: `adc_results[i] = pots[i].read_u16()` for
`i < n_adc - 2`, then `adc_results[n_adc-2] = pots[4]` (left flipper
position) and `adc_results[n_adc-1] = pots[5]` (right flipper position).
`pots` gives the 16-bit reading of each of the six analog channels this
iteration. -/
def sampleActive (n : Nat) (pots : Fin 6 → Nat) : List Nat :=
  ((List.range (n - 2)).map fun i => pots ⟨i % 6, Nat.mod_lt _ (by norm_num)⟩)
    ++ [pots 4, pots 5]

/-- Uppercase hexadecimal digit, as produced by `printf("%X", ...)`. -/
def hexDigit (d : Nat) : Char :=
  if d < 10 then Char.ofNat (48 + d) else Char.ofNat (55 + d)

/-- Fuelled digit accumulator for `hexUpper` (structural recursion so that
concrete values reduce definitionally). -/
def hexDigitsAux : Nat → Nat → List Char
  | 0, _ => []
  | fuel + 1, n =>
    if n < 16 then [hexDigit n]
    else hexDigitsAux fuel (n / 16) ++ [hexDigit (n % 16)]

/-- The digits printed by `printf("%X", n)`: uppercase, no padding, a
single `0` for zero. -/
def hexUpper (n : Nat) : String :=
  ⟨hexDigitsAux (n + 1) n⟩

/-- The report step: `printf("0x%X ", adc_results[i])` for each result in
order, then `printf("\n")`. -/
def reportLine (results : List Nat) : String :=
  String.join (results.map fun r => "0x" ++ hexUpper r ++ " ") ++ "\n"

/-- Loop-carried state of `main`: the last stored command byte (the union
`packet`), the four-motor array, and the ADC result buffer. -/
structure LoopState where
  packetByte : Nat
  motors : Fin 4 → Motor
  adc_results : List Nat

/-- What one iteration emits: the act-step action and the report line
written to the serial link. -/
structure Output where
  action : Action
  line : String

/-- One iteration of the `while(1)` body.  `rx` is the at-most-one byte the
transport has available (`rpi.readable()` / `rpi.getc()`); when `none`, the
previously stored byte is kept and re-decoded unchanged.  `pots` gives this
iteration's analog readings. -/
def tick (st : LoopState) (rx : Option Nat) (pots : Fin 6 → Nat) :
    LoopState × Output :=
  let b := rx.getD st.packetByte
  let p := decode b
  let r := act st.motors p
  let results := sampleActive n_adc pots
  ({ packetByte := b, motors := r.1, adc_results := results },
   { action := r.2, line := reportLine results })

/-- The motor array as initialized at the top of `main`: four
freshly-constructed motors. -/
def initialMotors : Fin 4 → Motor := fun _ => Motor.init

/-- The loop state at the first iteration: motors constructed,
`adc_results` zeroed.  (The C `packet` union is uninitialized at this
point; `0` is one arbitrary representative and no theorem below depends on
it.) -/
def initialState : LoopState :=
  { packetByte := 0, motors := initialMotors, adc_results := List.replicate n_adc 0 }

/-- Sensor readings for the end-to-end scenario: the two active channels
(`pots[4]`, `pots[5]`) read 0x1234 and 0x0000. -/
def potsScenario : Fin 6 → Nat := fun i => if i.val = 4 then 0x1234 else 0

/-- Concrete readings used as a sampling witness. -/
def potsW : Fin 6 → Nat := fun i => 100 * i.val

/-- The second projection of `act` is determined by the packet alone. -/
theorem act_snd (motors : Fin 4 → Motor) (p : MotorPacket) :
    (act motors p).2 = commandOf p := by
  unfold act commandOf
  split <;> simp

/-! ## Claims -/

/-- C1: decoding is total and in-range: every byte value in [0,255] yields
a packet with `motor_id ∈ [0,3]` and `speed ∈ [0,31]`, and the packet is
classified as an extension command iff its negative flag is set and its
speed is zero. -/
theorem decode_total_bounds (b : Nat) (hb : b ≤ 255) :
    (decode b).motor_id ≤ 3 ∧ (decode b).speed ≤ 31 ∧
      (isExtension (decode b) = true ↔
        ((decode b).negative = 1 ∧ (decode b).speed = 0)) := by
  refine ⟨?_, ?_, ?_⟩
  · simp only [decode]; omega
  · simp only [decode]; omega
  · simp only [isExtension, decode, Bool.and_eq_true, bne_iff_ne, ne_eq,
      beq_iff_eq]
    omega

/-- Witness for C1 at the concrete byte 65. -/
theorem decode_total_bounds_witness :
    (65 : Nat) ≤ 255 ∧
      ((decode 65).motor_id ≤ 3 ∧ (decode 65).speed ≤ 31 ∧
        (isExtension (decode 65) = true ↔
          ((decode 65).negative = 1 ∧ (decode 65).speed = 0))) :=
  ⟨by decide, decode_total_bounds 65 (by decide)⟩

/-- C5: packing a valid field triple into a byte with the wire layout and
decoding it again returns the identical triple. -/
theorem encode_decode_roundtrip (motor_id negative speed : Nat)
    (h1 : motor_id ≤ 3) (h2 : negative ≤ 1) (h3 : speed ≤ 31) :
    decode (encode motor_id negative speed) =
      ⟨motor_id, negative, speed⟩ := by
  simp only [decode, encode, MotorPacket.mk.injEq]
  refine ⟨?_, ?_, ?_⟩ <;> omega

/-- Witness for C5 at the triple (2, 1, 5). -/
theorem encode_decode_roundtrip_witness :
    (2 : Nat) ≤ 3 ∧ (1 : Nat) ≤ 1 ∧ (5 : Nat) ≤ 31 ∧
      decode (encode 2 1 5) = ⟨2, 1, 5⟩ :=
  ⟨by decide, by decide, by decide, encode_decode_roundtrip 2 1 5 (by decide) (by decide) (by decide)⟩

/-- C4: for speeds in [-1,1], `drive` sets the direction output to the
forward level iff the speed is nonnegative, sets the duty cycle to the
absolute value of the speed, and is idempotent. -/
theorem drive_spec (m : Motor) (s : ℚ) (h1 : -1 ≤ s) (h2 : s ≤ 1) :
    ((m.drive s).dir = forwardLevel ↔ 0 ≤ s) ∧
      (m.drive s).pwm.duty = |s| ∧
      (m.drive s).drive s = m.drive s := by
  refine ⟨?_, rfl, rfl⟩
  constructor
  · intro hd
    by_contra hneg
    push_neg at hneg
    simp [Motor.drive, if_pos hneg, forwardLevel] at hd
  · intro hs
    simp [Motor.drive, forwardLevel, not_lt.mpr hs]

/-- Witness for C4 at the freshly constructed motor and speed 1/2. -/
theorem drive_spec_witness :
    (-1 : ℚ) ≤ 1 / 2 ∧ (1 / 2 : ℚ) ≤ 1 ∧
      (((Motor.init.drive (1 / 2)).dir = forwardLevel ↔ (0 : ℚ) ≤ 1 / 2) ∧
        (Motor.init.drive (1 / 2)).pwm.duty = |(1 / 2 : ℚ)| ∧
        (Motor.init.drive (1 / 2)).drive (1 / 2) = Motor.init.drive (1 / 2)) :=
  ⟨by norm_num, by norm_num,
    drive_spec Motor.init (1 / 2) (by norm_num) (by norm_num)⟩

/-- C6: when no byte is available, the stored packet byte is kept
unchanged, and two consecutive no-byte iterations both apply exactly the
command the last decoded packet dictates. -/
theorem stale_packet_reapplied (st : LoopState) (pots1 pots2 : Fin 6 → Nat) :
    (tick st none pots1).1.packetByte = st.packetByte ∧
      (tick st none pots1).2.action = commandOf (decode st.packetByte) ∧
      (tick (tick st none pots1).1 none pots2).2.action =
        commandOf (decode st.packetByte) := by
  refine ⟨rfl, ?_, ?_⟩ <;> simp [tick, act_snd]

/-- C7 counterexample: the constructor leaves the direction output at the
low level, which is not the forward level (the DIR pin contract is HI =
forward), so the claim that both outputs are low *and* the direction sits
at the forward level is false. -/
theorem init_dir_not_forward :
    ¬ (Motor.init.pwm.duty = 0 ∧ Motor.init.dir = forwardLevel ∧
        Motor.init.pwm.period_us = 40) := by
  intro h
  exact absurd h.2.1 (by decide)

/-- C7 amended: on construction, before any drive call, both outputs are
driven low — zero duty and direction at the low level, which is the
*reverse* (not forward) level — and the PWM period is 40 microseconds. -/
theorem motor_init_spec :
    Motor.init.pwm.duty = 0 ∧ Motor.init.dir = 0 ∧
      Motor.init.dir ≠ forwardLevel ∧ Motor.init.pwm.period_us = 40 :=
  ⟨rfl, rfl, by decide, rfl⟩

/-- C9: acting on a drive (non-extension) packet leaves every motor other
than the addressed one exactly unchanged, and changes no motor's PWM
period. -/
theorem act_frame (motors : Fin 4 → Motor) (p : MotorPacket)
    (h : isExtension p = false) (j : Fin 4) (hj : j ≠ motorIndex p) :
    (act motors p).1 j = motors j ∧
      ∀ k : Fin 4, ((act motors p).1 k).pwm.period_us =
        (motors k).pwm.period_us := by
  constructor
  · simp only [act, h, Bool.false_eq_true, if_false]
    exact Function.update_noteq hj _ _
  · intro k
    by_cases hk : k = motorIndex p
    · subst hk
      simp [act, h, Motor.drive]
    · simp only [act, h, Bool.false_eq_true, if_false]
      rw [Function.update_noteq hk]

/-- Witness for C9: byte 65 addresses motor 1, so motor 0 is untouched. -/
theorem act_frame_witness :
    isExtension (decode 65) = false ∧
      ((0 : Fin 4) ≠ motorIndex (decode 65)) ∧
      ((act initialMotors (decode 65)).1 0 = initialMotors 0 ∧
        ∀ k : Fin 4, ((act initialMotors (decode 65)).1 k).pwm.period_us =
          (initialMotors k).pwm.period_us) :=
  ⟨by decide, by decide,
    act_frame initialMotors (decode 65) (by decide) 0 (by decide)⟩

/-- C10: acting on an extension-command packet (negative set, zero speed)
changes no motor state at all, whatever the packet's motor_id field is. -/
theorem act_ext_noop (motors : Fin 4 → Motor) (p : MotorPacket)
    (h : isExtension p = true) :
    (act motors p).1 = motors := by
  simp [act, h]

/-- Witness for C10 at the extension byte 4 (negative = 1, speed = 0). -/
theorem act_ext_noop_witness :
    isExtension (decode 4) = true ∧
      (act initialMotors (decode 4)).1 = initialMotors :=
  ⟨by decide, act_ext_noop initialMotors (decode 4) (by decide)⟩

/-- C3 counterexample: the byte 0b00100000 (32) does *not* decode with the
negative flag set and zero speed — it decodes to motor_id 0, negative 0,
speed 4, is not an extension command, and the act step drives motor 0. -/
theorem byte32_drives_motor :
    (decode 32).negative = 0 ∧ (decode 32).speed = 4 ∧
      isExtension (decode 32) = false ∧
      (act initialMotors (decode 32)).2 =
        Action.driveCmd 0 ((4 : ℚ) / 31) ∧
      (act initialMotors (decode 32)).1 ≠ initialMotors := by
  refine ⟨rfl, rfl, rfl, ?_, ?_⟩
  · simp only [act_snd, commandOf, isExtension, decode, normalizedSpeed]
    norm_num
  · intro h
    have h0 := congrFun h (motorIndex (decode 32))
    simp only [act, isExtension, decode, Function.update_same] at h0
    have hd : |normalizedSpeed (decode 32)| = 0 := congrArg (fun m => m.pwm.duty) h0
    simp [normalizedSpeed, decode] at hd

/-- C3 amended: the extension command with id 0 is the byte 0b00000100 (4):
it decodes to negative = 1, speed = 0, motor_id = 0, is dispatched as
extension id 0, and never causes any motor drive (the motor array is
returned unchanged). -/
theorem ext_byte4_dispatch :
    (decode 4).negative = 1 ∧ (decode 4).speed = 0 ∧
      (decode 4).motor_id = 0 ∧
      ∀ motors : Fin 4 → Motor, act motors (decode 4) =
        (motors, Action.ext 0) :=
  ⟨rfl, rfl, rfl, fun _ => rfl⟩

/-- C2 counterexample: byte 0x41 decodes with speed 8 (bits 3-7 of
0b01000001), not 2, so the iteration drives motor 1 at 8/31, not 2/31. -/
theorem byte41_speed_not_two :
    (decode 0x41).speed = 8 ∧ (decode 0x41).speed ≠ 2 ∧
      (tick initialState (some 0x41) potsScenario).2.action ≠
        Action.driveCmd 1 ((2 : ℚ) / 31) := by
  refine ⟨rfl, by decide, ?_⟩
  simp only [tick, act_snd, commandOf, isExtension, decode, normalizedSpeed]
  norm_num

/-- C2 amended: processing byte 0x41 (motor_id = 1, negative = 0,
speed = 8) drives motor 1 forward at 8/31, and with the two active
channels sampling 0x1234 and 0x0000 the report line written that iteration
is exactly "0x1234 0x0 \n". -/
theorem scenario_0x41 :
    (tick initialState (some 0x41) potsScenario).2.action =
      Action.driveCmd 1 ((8 : ℚ) / 31) ∧
      ((tick initialState (some 0x41) potsScenario).1.motors 1).dir =
        forwardLevel ∧
      ((tick initialState (some 0x41) potsScenario).1.motors 1).pwm.duty =
        (8 : ℚ) / 31 ∧
      (tick initialState (some 0x41) potsScenario).2.line = "0x1234 0x0 \n" := by
  refine ⟨?_, ?_, ?_, rfl⟩
  · simp only [tick, act_snd, commandOf, isExtension, decode, normalizedSpeed]
    norm_num
  · show (if normalizedSpeed (decode 65) < 0 then 0 else 1) = forwardLevel
    rw [if_neg]
    · rfl
    · simp only [normalizedSpeed, decode]
      norm_num
  · show |normalizedSpeed (decode 65)| = (8 : ℚ) / 31
    simp only [normalizedSpeed, decode]
    norm_num

/-- C8: the sample step yields exactly `n` readings; the last two are the
left and right flipper position channels (`pots[4]` and `pots[5]`), and
the leading `n - 2` entries read channels 0 through `n - 3` in ascending
order. -/
theorem sampleActive_spec (n : Nat) (pots : Fin 6 → Nat)
    (h2 : 2 ≤ n) (h6 : n ≤ 6) :
    (sampleActive n pots).length = n ∧
      (sampleActive n pots)[n - 2]? = some (pots 4) ∧
      (sampleActive n pots)[n - 1]? = some (pots 5) ∧
      ∀ i (hi : i < n - 2),
        (sampleActive n pots)[i]? = some (pots ⟨i, by omega⟩) := by
  refine ⟨?_, ?_, ?_, ?_⟩
  · simp only [sampleActive, List.length_append, List.length_map,
      List.length_range, List.length_cons, List.length_nil]
    omega
  · rw [sampleActive, List.getElem?_append_right (by simp)]
    simp
  · rw [sampleActive, List.getElem?_append_right (by simp; omega)]
    have h1 : n - 1 - (n - 2) = 1 := by omega
    simp [h1]
  · intro i hi
    rw [sampleActive, List.getElem?_append_left (by simp; omega)]
    rw [List.getElem?_map, List.getElem?_range hi]
    have hmod : i % 6 = i := Nat.mod_eq_of_lt (by omega)
    simp only [Option.map_some']
    congr 1
    exact congrArg pots (Fin.ext hmod)

/-- Witness for C8 at n = 4 active channels with concrete readings. -/
theorem sampleActive_spec_witness :
    (2 : Nat) ≤ 4 ∧ (4 : Nat) ≤ 6 ∧
      ((sampleActive 4 potsW).length = 4 ∧
        (sampleActive 4 potsW)[4 - 2]? = some (potsW 4) ∧
        (sampleActive 4 potsW)[4 - 1]? = some (potsW 5) ∧
        ∀ i (hi : i < 4 - 2),
          (sampleActive 4 potsW)[i]? = some (potsW ⟨i, by omega⟩)) :=
  ⟨by decide, by decide, sampleActive_spec 4 potsW (by decide) (by decide)⟩

end Kaginawa
